import Mathlib

set_option maxRecDepth 10000

/-!
Verification of the batch-and-fold ingestion pipeline of `dme_webapp.py`.

The development shallowly embeds the pipeline core (`process_uploads` and the
functions it calls) as executable Lean definitions:

* uploaded entries and flattened images are records of names and byte blobs
  (bytes are lists of naturals);
* the three external collaborators (the Gemini extraction boundary, the Google
  Docs artifact builder, the Google Drive storage boundary) are modelled as
  oracle functions in an `Env` record for the first two, and as explicit state
  passing over a `DriveState` value for the storage boundary, which records
  every created folder and every uploaded CSV in order;
* Python exceptions are modelled with `Except String`, carrying the message
  that `str(e)` would carry;
* the batching comprehension and the processing loops are translated
  line by line.
-/

/-- Configuration constant from the source: `BATCH_SIZE = 50`. -/
def BATCH_SIZE : Nat := 50

/-- Model of the configured base Drive folder id `BASE_FOLDER_ID`.
Drive ids are strings in the source; the embedding numbers folders with
naturals handed out by the storage state, reserving `0` for the base folder. -/
def BASE_FOLDER_ID : Nat := 0

/-- One flattened work item: a named byte blob, as built by the flattening
loop of `process_uploads` (`{'name': ..., 'bytes': ...}`). -/
structure ImageItem where
  name : String
  bytes : List Nat
deriving DecidableEq, Repr

/-- One uploaded entry. The source receives Streamlit upload handles carrying
a `name` and raw `bytes`; when the entry is opened as a zip archive, the
archive listing that `zipfile.ZipFile` would produce from those bytes is
modelled by `archiveMembers` (member name together with the bytes that
`z.read(member)` returns, in `z.namelist()` order). -/
structure UploadedFile where
  name : String
  bytes : List Nat
  archiveMembers : List ImageItem
deriving DecidableEq, Repr

/-- Model of the Python method `str.lower`, restricted to ASCII letters, which
is what `Char.toLower` lowers. All extensions compared in the source are
ASCII. -/
def pyLower (s : String) : String :=
  ⟨s.data.map Char.toLower⟩

/-- Model of the Python method `str.endswith` for a single literal suffix:
the suffix characters are a suffix of the characters of the string. -/
def pyEndsWith (s suffix : String) : Bool :=
  suffix.data.isSuffixOf s.data

/-- Filtering test applied to archive members in `process_uploads`:
`filename.lower().endswith(('.jpg', '.jpeg', '.png'))`. -/
def hasImageExt (filename : String) : Bool :=
  pyEndsWith (pyLower filename) ".jpg"
    || pyEndsWith (pyLower filename) ".jpeg"
    || pyEndsWith (pyLower filename) ".png"

/-- Flattening of a single uploaded entry (body of the first loop of
`process_uploads`): an entry whose name ends in `.zip` is expanded to its
archive members that pass `hasImageExt`, in listing order; any other entry
passes through unchanged as one item. -/
def flattenFile (f : UploadedFile) : List ImageItem :=
  if pyEndsWith f.name ".zip" then
    f.archiveMembers.filter (fun im => hasImageExt im.name)
  else
    [{ name := f.name, bytes := f.bytes }]

/-- The whole flattening loop: `all_images` is accumulated by appending the
expansion of each uploaded entry in upload order. -/
def flattenUploads (uploaded_files : List UploadedFile) : List ImageItem :=
  uploaded_files.foldl (fun acc f => acc ++ flattenFile f) []

/-- The structured record `{device, model, serial, manufacturer}` carried by a
successful extraction. -/
structure ExtractedFields where
  device : String
  model : String
  serial : String
  manufacturer : String
deriving DecidableEq, Repr

/-- One per-item result record, as appended to `operation_results` and
`all_results`: the success dictionary carries the four fields and the doc
URL with status `SUCCESS`; the failure dictionary carries only the error
message with status `FAILED`. The constructor is the status tag. -/
inductive ProcessResult where
  | success (operation : Nat) (image : String) (fields : ExtractedFields) (doc_url : String)
  | failed (operation : Nat) (image : String) (error : String)
deriving DecidableEq, Repr

/-- Test `r['status'] == 'SUCCESS'`. -/
def ProcessResult.isSuccess : ProcessResult → Bool
  | .success _ _ _ _ => true
  | .failed _ _ _ => false

/-- Test `r['status'] == 'FAILED'`. -/
def ProcessResult.isFailed : ProcessResult → Bool
  | .success _ _ _ _ => false
  | .failed _ _ _ => true

/-- The `operation` field carried by either variant of a result record. -/
def ProcessResult.operation : ProcessResult → Nat
  | .success op _ _ _ => op
  | .failed op _ _ => op

/-- Model of the dictionary returned by `json.loads` on the model response:
an association list from key to string value. -/
abbrev Json := List (String × String)

/-- Model of a Python dictionary subscript `data[k]`: a present key yields its
value, a missing key raises `KeyError`, whose message names the key. -/
def jsonGet (data : Json) (k : String) : Except String String :=
  match data.lookup k with
  | some v => Except.ok v
  | none => Except.error ("KeyError: " ++ k)

/-- The external collaborator boundaries consumed by the pipeline.
`extract_equipment_data` models the whole function of that name in the
source at its boundary: the Gemini call, the code-fence stripping and
`json.loads`; on success it yields the parsed JSON object exactly as the
source returns it, with no validation of which keys are present.
`driveCreateDocFile` models the `drive_service.files().create` call that
makes the Google Doc from a title and a parent folder, yielding the doc id.
`docsApiCalls` models the subsequent sequence of `batchUpdate` and `get`
calls that lay out the document body. `sessionTimestamp` models
`datetime.now().strftime("%Y-%m-%d_%H-%M-%S")`. -/
structure Env where
  sessionTimestamp : String
  extract_equipment_data : List Nat → Except String Json
  driveCreateDocFile : String → Nat → Except String String
  docsApiCalls : String → Except String Unit

/-- Embedding of `create_equipment_doc(data, folder_id)`. The source first
builds the title `f"{data['device']} - {data['serial']}"` (two dictionary
subscripts that can raise `KeyError`), then creates the doc file in Drive,
then builds the four content lines (four more subscripts), then runs the
document layout calls, and finally returns the edit URL for the doc id.
Every raised error propagates to the caller. -/
def create_equipment_doc (env : Env) (data : Json) (folder_id : Nat) : Except String String :=
  match jsonGet data "device" with
  | Except.error e => Except.error e
  | Except.ok device =>
    match jsonGet data "serial" with
    | Except.error e => Except.error e
    | Except.ok serial =>
      match env.driveCreateDocFile (device ++ " - " ++ serial) folder_id with
      | Except.error e => Except.error e
      | Except.ok doc_id =>
        match jsonGet data "device" with
        | Except.error e => Except.error e
        | Except.ok _ =>
          match jsonGet data "model" with
          | Except.error e => Except.error e
          | Except.ok _ =>
            match jsonGet data "serial" with
            | Except.error e => Except.error e
            | Except.ok _ =>
              match jsonGet data "manufacturer" with
              | Except.error e => Except.error e
              | Except.ok _ =>
                match env.docsApiCalls doc_id with
                | Except.error e => Except.error e
                | Except.ok _ =>
                  Except.ok ("https://docs.google.com/document/d/" ++ doc_id ++ "/edit")

/-- Embedding of the body of the inner item loop of `process_uploads`:
`global_idx = (op_idx - 1) * BATCH_SIZE + img_idx` is computed for the
progress displays, then the `try` block runs `extract_equipment_data`,
`create_equipment_doc` and the construction of the success dictionary (whose
four field subscripts can each raise `KeyError`); any raised error is caught
by the `except` clause, which records a failure dictionary carrying the
message. The computed global index is returned alongside the result. -/
def processItem (env : Env) (op_idx op_folder_id img_idx : Nat) (image : ImageItem) :
    Nat × ProcessResult :=
  let global_idx := (op_idx - 1) * BATCH_SIZE + img_idx
  match env.extract_equipment_data image.bytes with
  | Except.error e => (global_idx, ProcessResult.failed op_idx image.name e)
  | Except.ok data =>
    match create_equipment_doc env data op_folder_id with
    | Except.error e => (global_idx, ProcessResult.failed op_idx image.name e)
    | Except.ok doc_url =>
      match jsonGet data "device" with
      | Except.error e => (global_idx, ProcessResult.failed op_idx image.name e)
      | Except.ok device =>
        match jsonGet data "model" with
        | Except.error e => (global_idx, ProcessResult.failed op_idx image.name e)
        | Except.ok model =>
          match jsonGet data "serial" with
          | Except.error e => (global_idx, ProcessResult.failed op_idx image.name e)
          | Except.ok serial =>
            match jsonGet data "manufacturer" with
            | Except.error e => (global_idx, ProcessResult.failed op_idx image.name e)
            | Except.ok manufacturer =>
              (global_idx, ProcessResult.success op_idx image.name
                { device := device, model := model,
                  serial := serial, manufacturer := manufacturer } doc_url)

/-- The inner loop `for img_idx, image in enumerate(operation_images, 1)`,
carrying the running one-based item index. -/
def processItems (env : Env) (op_idx op_folder_id : Nat) :
    Nat → List ImageItem → List (Nat × ProcessResult)
  | _, [] => []
  | img_idx, image :: rest =>
    processItem env op_idx op_folder_id img_idx image
      :: processItems env op_idx op_folder_id (img_idx + 1) rest

/-- Embedding of the batching comprehension
`operations = [all_images[i:i + BATCH_SIZE] for i in range(0, len(all_images), BATCH_SIZE)]`.
The Python range with start `0`, stop `n` and positive step `bs` enumerates
`(n + bs - 1) / bs` multiples of `bs`, and the slice `l[i:i+bs]` is
`(l.drop i).take bs`. -/
def toChunks (bs : Nat) (l : List α) : List (List α) :=
  (List.range ((l.length + bs - 1) / bs)).map (fun i => (l.drop (i * bs)).take bs)

/-- Model of the format expression `f"{op_idx:03d}"`: decimal digits padded
with zeros on the left to width three. -/
def pad3 (n : Nat) : String :=
  if n < 10 then "00" ++ toString n
  else if n < 100 then "0" ++ toString n
  else toString n

/-- One folder created through `create_drive_folder`, as recorded by the
storage state: its assigned id, its name, and its parent folder id. -/
structure DriveFolder where
  id : Nat
  name : String
  parent : Option Nat
deriving DecidableEq, Repr

/-- One CSV uploaded through `upload_csv_to_drive`, as recorded by the
storage state. The source serializes a `pandas.DataFrame` of the result
dictionaries; the embedding keeps the rows as result records (failure rows
structurally lack the field and doc URL columns). -/
structure DriveCsv where
  rows : List ProcessResult
  filename : String
  folder : Nat
deriving DecidableEq, Repr

/-- The storage boundary state: the next folder id to hand out, and the
folders and CSVs created so far, in creation order. -/
structure DriveState where
  nextId : Nat
  folders : List DriveFolder
  csvs : List DriveCsv
deriving DecidableEq, Repr

/-- Fresh storage state for one run. -/
def initState : DriveState :=
  { nextId := 1, folders := [], csvs := [] }

/-- Embedding of `create_drive_folder(folder_name, parent_id)`: records the
folder and returns its assigned id. -/
def create_drive_folder (s : DriveState) (folder_name : String) (parent_id : Option Nat) :
    Nat × DriveState :=
  (s.nextId,
   { nextId := s.nextId + 1,
     folders := s.folders ++ [{ id := s.nextId, name := folder_name, parent := parent_id }],
     csvs := s.csvs })

/-- Embedding of `upload_csv_to_drive(csv_data, filename, folder_id)`. -/
def upload_csv_to_drive (s : DriveState) (rows : List ProcessResult) (filename : String)
    (folder_id : Nat) : DriveState :=
  { s with csvs := s.csvs ++ [{ rows := rows, filename := filename, folder := folder_id }] }

/-- Embedding of the outer loop `for op_idx, operation_images in
enumerate(operations, 1)`: each iteration creates the operation folder
`Operation_{op_idx:03d}` under the master folder, processes the items of the
group in order, uploads the per-group CSV `batch_results.csv` into the
operation folder, and accumulates the indexed results into `all_results`. -/
def runOperations (env : Env) (master_folder_id : Nat) :
    Nat → List (List ImageItem) → DriveState → List (Nat × ProcessResult) × DriveState
  | _, [], s => ([], s)
  | op_idx, operation_images :: rest, s =>
    let created := create_drive_folder s ("Operation_" ++ pad3 op_idx) (some master_folder_id)
    let op_folder_id := created.1
    let s1 := created.2
    let operation_results := processItems env op_idx op_folder_id 1 operation_images
    let s2 := upload_csv_to_drive s1 (operation_results.map Prod.snd) "batch_results.csv"
      op_folder_id
    let next := runOperations env master_folder_id (op_idx + 1) rest s2
    (operation_results ++ next.1, next.2)

/-- The dictionary returned by `process_uploads` on normal completion. -/
structure RunSummary where
  total : Nat
  operations : Nat
  success : Nat
  failed : Nat
  master_folder_url : String
  results : List ProcessResult
deriving DecidableEq, Repr

/-- Embedding of `process_uploads(uploaded_files)`. The uploads are
flattened; an empty flattened list reports the no-images error and returns
with the storage state untouched. Otherwise the master session folder is
created under the base folder, the images are split into operations of
`BATCH_SIZE`, every operation is processed in order, the master CSV
`master_results.csv` is uploaded into the master folder, and the summary
dictionary is returned. -/
def process_uploads (env : Env) (uploaded_files : List UploadedFile) (s0 : DriveState) :
    Except String RunSummary × DriveState :=
  let all_images := flattenUploads uploaded_files
  if all_images.isEmpty then
    (Except.error "❌ No valid images found!", s0)
  else
    let master := create_drive_folder s0 ("DME_Upload_" ++ env.sessionTimestamp)
      (some BASE_FOLDER_ID)
    let master_folder_id := master.1
    let s1 := master.2
    let operations := toChunks BATCH_SIZE all_images
    let run := runOperations env master_folder_id 1 operations s1
    let all_results := run.1.map Prod.snd
    let s2 := upload_csv_to_drive run.2 all_results "master_results.csv" master_folder_id
    let success := (all_results.filter (fun r => r.isSuccess)).length
    let failed := (all_results.filter (fun r => r.isFailed)).length
    (Except.ok
      { total := all_images.length,
        operations := operations.length,
        success := success,
        failed := failed,
        master_folder_url := "https://drive.google.com/drive/folders/" ++ toString master_folder_id,
        results := all_results },
     s2)

/-- Closed form of the results accumulated across the outer loop: the
concatenation, in ascending operation order, of the per-group result lists,
where the operation numbered `op_idx` processes its items against its own
folder id `folder_id` and consecutive operations use consecutive folder
ids. -/
def groupResults (env : Env) : Nat → Nat → List (List ImageItem) → List (Nat × ProcessResult)
  | _, _, [] => []
  | op_idx, folder_id, imgs :: rest =>
    processItems env op_idx folder_id 1 imgs ++ groupResults env (op_idx + 1) (folder_id + 1) rest

/-- Closed form of the per-group CSV records appended across the outer loop. -/
def batchCsvs (env : Env) : Nat → Nat → List (List ImageItem) → List DriveCsv
  | _, _, [] => []
  | op_idx, folder_id, imgs :: rest =>
    { rows := (processItems env op_idx folder_id 1 imgs).map Prod.snd,
      filename := "batch_results.csv", folder := folder_id }
      :: batchCsvs env (op_idx + 1) (folder_id + 1) rest

/-- Demo images used in the concrete batching scenario: `n` items whose byte
blobs record their zero-based position. -/
def demoImages (n : Nat) : List ImageItem :=
  (List.range n).map (fun i => { name := "", bytes := [i] })

/-- A complete parsed extraction response carrying all four keys. -/
def fullData : Json :=
  [("device", "Walker"), ("model", "W100"), ("serial", "SN1"), ("manufacturer", "Acme")]

/-- A parsed extraction response that lacks the `serial` key. -/
def missingData : Json :=
  [("device", "Walker"), ("model", "W100"), ("manufacturer", "Acme")]

/-- Demo environment in which every external call succeeds. -/
def okEnv : Env :=
  { sessionTimestamp := "T",
    extract_equipment_data := fun _ => Except.ok fullData,
    driveCreateDocFile := fun _ _ => Except.ok "d1",
    docsApiCalls := fun _ => Except.ok () }

/-- Demo environment in which extraction raises with message `boom`. -/
def extractFailEnv : Env :=
  { okEnv with extract_equipment_data := fun _ => Except.error "boom" }

/-- Demo environment in which the Drive doc creation raises with `boom`. -/
def docFailEnv : Env :=
  { okEnv with driveCreateDocFile := fun _ _ => Except.error "boom" }

/-- Demo environment whose extraction parses but lacks the `serial` key. -/
def missingEnv : Env :=
  { okEnv with extract_equipment_data := fun _ => Except.ok missingData }

/-- Demo single image. -/
def demoImage : ImageItem := { name := "a.jpg", bytes := [0] }

/-- Demo upload set holding one raw image. -/
def demoFiles : List UploadedFile := [{ name := "a.jpg", bytes := [0], archiveMembers := [] }]

/-- Fields extracted by `okEnv`. -/
def okFields : ExtractedFields :=
  { device := "Walker", model := "W100", serial := "SN1", manufacturer := "Acme" }

/-- The success record produced for `demoImage` under `okEnv`. -/
def okResult : ProcessResult :=
  ProcessResult.success 1 "a.jpg" okFields "https://docs.google.com/document/d/d1/edit"

/-- The failure record produced for `demoImage` under `extractFailEnv`. -/
def failResult : ProcessResult := ProcessResult.failed 1 "a.jpg" "boom"

/-- Summary returned by the demo run of `okEnv` over `demoFiles`. -/
def demoSummary : RunSummary :=
  { total := 1, operations := 1, success := 1, failed := 0,
    master_folder_url := "https://drive.google.com/drive/folders/1",
    results := [okResult] }

/-- Final storage state of the demo run of `okEnv` over `demoFiles`. -/
def demoFinal : DriveState :=
  { nextId := 3,
    folders := [{ id := 1, name := "DME_Upload_T", parent := some 0 },
                { id := 2, name := "Operation_001", parent := some 1 }],
    csvs := [{ rows := [okResult], filename := "batch_results.csv", folder := 2 },
             { rows := [okResult], filename := "master_results.csv", folder := 1 }] }

/-- Demo archive holding only a text member. -/
def txtOnlyZip : UploadedFile :=
  { name := "photos.zip", bytes := [9], archiveMembers := [{ name := "notes.txt", bytes := [1] }] }

/-- Demo upload set that flattens to nothing. -/
def emptyFiles : List UploadedFile := [txtOnlyZip]

/-- Demo archive holding a text member and an uppercase image member. -/
def mixedZip : UploadedFile :=
  { name := "photos.zip", bytes := [9],
    archiveMembers := [{ name := "notes.txt", bytes := [1] }, { name := "PIC.JPG", bytes := [2] }] }

/-- Demo non-archive upload. -/
def plainFile : UploadedFile := { name := "b.png", bytes := [3], archiveMembers := [] }

/-- Demo upload named with an uppercase archive extension. -/
def upperZip : UploadedFile :=
  { name := "PHOTOS.ZIP", bytes := [7], archiveMembers := [{ name := "inner.jpg", bytes := [8] }] }

/-- Demo one-element flattened list. -/
def demoList : List ImageItem := [demoImage]

/-- Arithmetic helper: a positive chunk count decomposes as one chunk plus
the count of the remaining elements. -/
theorem ceilDiv_succ (bs n : Nat) (hbs : 0 < bs) (hn : 0 < n) :
    (n + bs - 1) / bs = (n - bs + bs - 1) / bs + 1 := by
  have h1 : n + bs - 1 = (n - 1) + bs := by omega
  rw [h1, Nat.add_div_right _ hbs]
  rcases le_or_lt n bs with h | h
  · have h2 : n - bs + bs - 1 = bs - 1 := by omega
    rw [h2, Nat.div_eq_of_lt (by omega), Nat.div_eq_of_lt (by omega)]
  · have h2 : n - bs + bs - 1 = n - 1 := by omega
    rw [h2]

/-- Batching of the empty list yields no group. -/
theorem toChunks_nil (bs : Nat) : toChunks bs ([] : List α) = [] := by
  cases bs with
  | zero => simp [toChunks]
  | succ b =>
    simp only [toChunks, List.length_nil, Nat.zero_add]
    rw [Nat.div_eq_of_lt (by omega)]
    rfl

/-- Recursive characterization of the batching comprehension: a nonempty list
is split into its first `bs` elements followed by the batching of the rest. -/
theorem toChunks_cons (bs : Nat) (hbs : 0 < bs) (l : List α) (hl : l ≠ []) :
    toChunks bs l = l.take bs :: toChunks bs (l.drop bs) := by
  have hn : 0 < l.length := List.length_pos.mpr hl
  unfold toChunks
  rw [List.length_drop, ceilDiv_succ bs l.length hbs hn, List.range_succ_eq_map,
    List.map_cons, List.map_map]
  congr 1
  · simp
  · apply List.map_congr_left
    intro i _
    simp only [Function.comp]
    rw [List.drop_drop]
    have hmul : Nat.succ i * bs = bs + i * bs := by
      rw [Nat.succ_mul, Nat.add_comm]
    rw [hmul]

/-- The number of groups is the ceiling of the length over the chunk size. -/
theorem toChunks_length (bs : Nat) (l : List α) :
    (toChunks bs l).length = (l.length + bs - 1) / bs := by
  simp [toChunks]

/-- Concatenating the groups in order restores the input list. -/
theorem toChunks_flatten (bs : Nat) (hbs : 0 < bs) (l : List α) :
    (toChunks bs l).flatten = l := by
  have H : ∀ n (l : List α), l.length ≤ n → (toChunks bs l).flatten = l := by
    intro n
    induction n with
    | zero =>
      intro l hlen
      have hnil : l = [] := List.eq_nil_of_length_eq_zero (Nat.le_zero.mp hlen)
      subst hnil
      rw [toChunks_nil]
      rfl
    | succ n ih =>
      intro l hlen
      rcases eq_or_ne l [] with rfl | hne
      · rw [toChunks_nil]; rfl
      · have hpos : 0 < l.length := List.length_pos.mpr hne
        rw [toChunks_cons bs hbs l hne, List.flatten_cons,
          ih (l.drop bs) (by rw [List.length_drop]; omega)]
        exact List.take_append_drop bs l
  exact H l.length l le_rfl

/-- A nonempty list yields at least one group. -/
theorem toChunks_ne_nil (bs : Nat) (hbs : 0 < bs) (l : List α) (hl : l ≠ []) :
    toChunks bs l ≠ [] := by
  rw [toChunks_cons bs hbs l hl]
  exact List.cons_ne_nil _ _

/-- Every group is nonempty and holds at most `bs` items. -/
theorem toChunks_mem (bs : Nat) (hbs : 0 < bs) (l : List α) :
    ∀ c ∈ toChunks bs l, c ≠ [] ∧ c.length ≤ bs := by
  have H : ∀ n (l : List α), l.length ≤ n → ∀ c ∈ toChunks bs l, c ≠ [] ∧ c.length ≤ bs := by
    intro n
    induction n with
    | zero =>
      intro l hlen c hc
      have hnil : l = [] := List.eq_nil_of_length_eq_zero (Nat.le_zero.mp hlen)
      subst hnil
      rw [toChunks_nil] at hc
      exact absurd hc (List.not_mem_nil c)
    | succ n ih =>
      intro l hlen c hc
      rcases eq_or_ne l [] with rfl | hne
      · rw [toChunks_nil] at hc
        exact absurd hc (List.not_mem_nil c)
      · have hpos : 0 < l.length := List.length_pos.mpr hne
        rw [toChunks_cons bs hbs l hne] at hc
        rcases List.mem_cons.mp hc with rfl | hc
        · constructor
          · have : 0 < (l.take bs).length := by rw [List.length_take]; omega
            exact List.length_pos.mp this
          · rw [List.length_take]; omega
        · exact ih (l.drop bs) (by rw [List.length_drop]; omega) c hc
  exact H l.length l le_rfl

/-- Every group other than the last holds exactly `bs` items. -/
theorem toChunks_getD (bs : Nat) (hbs : 0 < bs) (l : List α) :
    ∀ i, i + 1 < (toChunks bs l).length → ((toChunks bs l).getD i []).length = bs := by
  have H : ∀ n (l : List α), l.length ≤ n →
      ∀ i, i + 1 < (toChunks bs l).length → ((toChunks bs l).getD i []).length = bs := by
    intro n
    induction n with
    | zero =>
      intro l hlen i hi
      have hnil : l = [] := List.eq_nil_of_length_eq_zero (Nat.le_zero.mp hlen)
      subst hnil
      rw [toChunks_nil] at hi
      simp at hi
    | succ n ih =>
      intro l hlen i hi
      rcases eq_or_ne l [] with rfl | hne
      · rw [toChunks_nil] at hi
        simp at hi
      · have hpos : 0 < l.length := List.length_pos.mpr hne
        rw [toChunks_cons bs hbs l hne] at hi ⊢
        cases i with
        | zero =>
          have htail : toChunks bs (l.drop bs) ≠ [] := by
            simp only [List.length_cons] at hi
            exact List.length_pos.mp (by omega)
          have hdrop : l.drop bs ≠ [] := by
            intro hd
            rw [hd, toChunks_nil] at htail
            exact htail rfl
          have hlen2 : bs ≤ l.length := by
            have := List.length_pos.mpr hdrop
            rw [List.length_drop] at this
            omega
          rw [List.getD_cons_zero, List.length_take]
          omega
        | succ i =>
          rw [List.getD_cons_succ]
          simp only [List.length_cons] at hi
          exact ih (l.drop bs) (by rw [List.length_drop]; omega) i (by omega)
  exact H l.length l le_rfl

/-- The last element of a nonempty list, read through `getLast?` with a
default, is a member of the list. -/
theorem getLastD_mem {β : Type _} (l : List β) (d : β) (hl : l ≠ []) :
    l.getLast?.getD d ∈ l := by
  induction l with
  | nil => exact absurd rfl hl
  | cons x xs ih =>
    cases xs with
    | nil => simp [List.getLast?]
    | cons y ys =>
      rw [List.getLast?_cons_cons]
      exact List.mem_cons_of_mem x (ih (List.cons_ne_nil y ys))

/-- The flattening loop equals the in-place concatenation of the expansion of
every uploaded entry, in upload order. -/
theorem flattenUploads_eq (files : List UploadedFile) :
    flattenUploads files = (files.map flattenFile).flatten := by
  have H : ∀ (fs : List UploadedFile) (acc : List ImageItem),
      fs.foldl (fun a f => a ++ flattenFile f) acc = acc ++ (fs.map flattenFile).flatten := by
    intro fs
    induction fs with
    | nil => intro acc; simp
    | cons f fs ih =>
      intro acc
      simp only [List.foldl_cons, List.map_cons, List.flatten_cons, ih, List.append_assoc]
  simpa using H files []

/-- The item loop yields exactly one result per item of the group. -/
theorem processItems_length (env : Env) (op_idx op_folder_id : Nat) :
    ∀ (img_idx : Nat) (imgs : List ImageItem),
      (processItems env op_idx op_folder_id img_idx imgs).length = imgs.length := by
  intro img_idx imgs
  induction imgs generalizing img_idx with
  | nil => rfl
  | cons im rest ih => simp [processItems, ih]

/-- Each position of the item loop output depends only on the item at that
position: the result at position `j` is the processing of item `j`. -/
theorem processItems_getElem? (env : Env) (op_idx op_folder_id : Nat) :
    ∀ (imgs : List ImageItem) (img_idx j : Nat),
      (processItems env op_idx op_folder_id img_idx imgs)[j]? =
        (imgs[j]?).map (fun im => processItem env op_idx op_folder_id (img_idx + j) im) := by
  intro imgs
  induction imgs with
  | nil => intro i j; simp [processItems]
  | cons im rest ih =>
    intro i j
    cases j with
    | zero => simp [processItems]
    | succ j =>
      simp only [processItems, List.getElem?_cons_succ]
      rw [ih (i + 1) j]
      have harith : i + (j + 1) = i + 1 + j := by omega
      rw [harith]

/-- The computed global index of an item is its formula value. -/
theorem processItem_fst (env : Env) (op_idx op_folder_id img_idx : Nat) (image : ImageItem) :
    (processItem env op_idx op_folder_id img_idx image).1 =
      (op_idx - 1) * BATCH_SIZE + img_idx := by
  unfold processItem
  (repeat' split) <;> rfl

/-- Both result variants carry the operation index of their group. -/
theorem processItem_operation (env : Env) (op_idx op_folder_id img_idx : Nat)
    (image : ImageItem) :
    ((processItem env op_idx op_folder_id img_idx image).2).operation = op_idx := by
  unfold processItem
  (repeat' split) <;> rfl

/-- The results of the outer loop are the per-group results concatenated in
operation order, the operation folders taking consecutive ids starting at the
next free id. -/
theorem runOperations_fst (env : Env) (m : Nat) :
    ∀ (ops : List (List ImageItem)) (i : Nat) (s : DriveState),
      (runOperations env m i ops s).1 = groupResults env i s.nextId ops := by
  intro ops
  induction ops with
  | nil => intro i s; rfl
  | cons imgs rest ih =>
    intro i s
    simp only [runOperations, groupResults, create_drive_folder, upload_csv_to_drive]
    rw [ih]

/-- The CSV records appended by the outer loop are exactly the per-group CSV
records, one per group, in operation order. -/
theorem runOperations_csvs (env : Env) (m : Nat) :
    ∀ (ops : List (List ImageItem)) (i : Nat) (s : DriveState),
      (runOperations env m i ops s).2.csvs = s.csvs ++ batchCsvs env i s.nextId ops := by
  intro ops
  induction ops with
  | nil => intro i s; simp [runOperations, batchCsvs]
  | cons imgs rest ih =>
    intro i s
    simp only [runOperations, batchCsvs, create_drive_folder, upload_csv_to_drive]
    rw [ih]
    simp

/-- The closed-form result list has one result per item of every group. -/
theorem groupResults_length (env : Env) :
    ∀ (ops : List (List ImageItem)) (i f : Nat),
      (groupResults env i f ops).length = (ops.map List.length).sum := by
  intro ops
  induction ops with
  | nil => intro i f; rfl
  | cons imgs rest ih =>
    intro i f
    simp [groupResults, processItems_length, ih]

/-- Every closed-form per-group CSV record carries the fixed name. -/
theorem batchCsvs_filter (env : Env) :
    ∀ (ops : List (List ImageItem)) (i f : Nat),
      (batchCsvs env i f ops).filter (fun c => c.filename == "batch_results.csv") =
        batchCsvs env i f ops := by
  intro ops
  induction ops with
  | nil => intro i f; rfl
  | cons imgs rest ih =>
    intro i f
    simp [batchCsvs, List.filter_cons, ih]

/-- One closed-form per-group CSV record per group. -/
theorem batchCsvs_length (env : Env) :
    ∀ (ops : List (List ImageItem)) (i f : Nat),
      (batchCsvs env i f ops).length = ops.length := by
  intro ops
  induction ops with
  | nil => intro i f; rfl
  | cons imgs rest ih => intro i f; simp [batchCsvs, ih]

/-- Every result record is tagged either success or failure, so the two tag
counts partition the list. -/
theorem isSuccess_success (op : Nat) (im : String) (fs : ExtractedFields) (u : String) :
    (ProcessResult.success op im fs u).isSuccess = true := rfl

/-- Tag computation on the failure variant. -/
theorem isSuccess_failed (op : Nat) (im e : String) :
    (ProcessResult.failed op im e).isSuccess = false := rfl

/-- Tag computation on the success variant. -/
theorem isFailed_success (op : Nat) (im : String) (fs : ExtractedFields) (u : String) :
    (ProcessResult.success op im fs u).isFailed = false := rfl

/-- Tag computation on the failure variant. -/
theorem isFailed_failed (op : Nat) (im e : String) :
    (ProcessResult.failed op im e).isFailed = true := rfl

/-- Every result record is tagged either success or failure, so the two tag
counts partition the list. -/
theorem length_filter_success_failed (l : List ProcessResult) :
    (l.filter (fun r => r.isSuccess)).length + (l.filter (fun r => r.isFailed)).length =
      l.length := by
  induction l with
  | nil => rfl
  | cons r rest ih =>
    cases r with
    | success op im fs u =>
      simp only [List.filter_cons, isSuccess_success, isFailed_success,
        Bool.false_eq_true, ite_true, ite_false, if_true, if_false, List.length_cons]
      omega
    | failed op im e =>
      simp only [List.filter_cons, isSuccess_failed, isFailed_failed,
        Bool.false_eq_true, ite_true, ite_false, if_true, if_false, List.length_cons]
      omega

/-- Empty flattened list: the run reports the no-images error and leaves the
storage state untouched. -/
theorem process_uploads_empty (env : Env) (files : List UploadedFile) (s0 : DriveState)
    (h : flattenUploads files = []) :
    process_uploads env files s0 = (Except.error "❌ No valid images found!", s0) := by
  unfold process_uploads
  rw [h]
  rfl

/-- Nonempty flattened list: the returned summary in closed form. -/
theorem process_uploads_fst (env : Env) (files : List UploadedFile) (s0 : DriveState)
    (hne : flattenUploads files ≠ []) :
    (process_uploads env files s0).1 = Except.ok
      { total := (flattenUploads files).length,
        operations := (toChunks BATCH_SIZE (flattenUploads files)).length,
        success := (((groupResults env 1 (s0.nextId + 1)
          (toChunks BATCH_SIZE (flattenUploads files))).map Prod.snd).filter
            (fun r => r.isSuccess)).length,
        failed := (((groupResults env 1 (s0.nextId + 1)
          (toChunks BATCH_SIZE (flattenUploads files))).map Prod.snd).filter
            (fun r => r.isFailed)).length,
        master_folder_url := "https://drive.google.com/drive/folders/" ++ toString s0.nextId,
        results := ((groupResults env 1 (s0.nextId + 1)
          (toChunks BATCH_SIZE (flattenUploads files))).map Prod.snd) } := by
  have hb : (flattenUploads files).isEmpty = false := by
    rcases hF : flattenUploads files with _ | ⟨a, as⟩
    · exact absurd hF hne
    · rfl
  unfold process_uploads
  simp only [hb, Bool.false_eq_true, if_false, create_drive_folder]
  rw [runOperations_fst]

/-- Nonempty flattened list: the final CSV trail in closed form, ending in the
master CSV placed in the master folder. -/
theorem process_uploads_csvs (env : Env) (files : List UploadedFile) (s0 : DriveState)
    (hne : flattenUploads files ≠ []) :
    (process_uploads env files s0).2.csvs =
      s0.csvs ++ batchCsvs env 1 (s0.nextId + 1) (toChunks BATCH_SIZE (flattenUploads files))
        ++ [{ rows := ((groupResults env 1 (s0.nextId + 1)
                (toChunks BATCH_SIZE (flattenUploads files))).map Prod.snd),
              filename := "master_results.csv", folder := s0.nextId }] := by
  have hb : (flattenUploads files).isEmpty = false := by
    rcases hF : flattenUploads files with _ | ⟨a, as⟩
    · exact absurd hF hne
    · rfl
  unfold process_uploads
  simp only [hb, Bool.false_eq_true, if_false, create_drive_folder, upload_csv_to_drive]
  rw [runOperations_csvs, runOperations_fst]

/-- Dictionary subscript success is exactly key presence. -/
theorem jsonGet_ok (data : Json) (k v : String) :
    jsonGet data k = Except.ok v ↔ data.lookup k = some v := by
  unfold jsonGet
  cases data.lookup k <;> simp

/-- A success record can only arise when extraction parsed a dictionary in
which all four keys are present with the recorded values. -/
theorem processItem_success_lookup (env : Env) (op_idx op_folder_id img_idx : Nat)
    (image : ImageItem) (op : Nat) (nm : String) (fs : ExtractedFields) (url : String)
    (hEq : (processItem env op_idx op_folder_id img_idx image).2 =
      ProcessResult.success op nm fs url) :
    ∃ data, env.extract_equipment_data image.bytes = Except.ok data
      ∧ data.lookup "device" = some fs.device
      ∧ data.lookup "model" = some fs.model
      ∧ data.lookup "serial" = some fs.serial
      ∧ data.lookup "manufacturer" = some fs.manufacturer := by
  unfold processItem at hEq
  split at hEq
  · exact absurd hEq (by simp)
  · rename_i data hX
    split at hEq
    · exact absurd hEq (by simp)
    · rename_i doc_url hC
      split at hEq
      · exact absurd hEq (by simp)
      · rename_i device hdev
        split at hEq
        · exact absurd hEq (by simp)
        · rename_i model hmod
          split at hEq
          · exact absurd hEq (by simp)
          · rename_i serial hser
            split at hEq
            · exact absurd hEq (by simp)
            · rename_i manufacturer hman
              simp only [ProcessResult.success.injEq] at hEq
              obtain ⟨-, -, hfs, -⟩ := hEq
              refine ⟨data, hX, ?_, ?_, ?_, ?_⟩ <;> rw [← hfs]
              · exact (jsonGet_ok _ _ _).mp hdev
              · exact (jsonGet_ok _ _ _).mp hmod
              · exact (jsonGet_ok _ _ _).mp hser
              · exact (jsonGet_ok _ _ _).mp hman

/-- C1: for every run that completes normally, the returned summary satisfies
successCount + failedCount = totalImages, where totalImages is the length of
the flattened image list, and the two counts count the result records tagged
SUCCESS and FAILED respectively. -/
theorem C1_success_failed_partition (env : Env) (files : List UploadedFile) (s0 : DriveState)
    (r : RunSummary) (sF : DriveState)
    (h : process_uploads env files s0 = (Except.ok r, sF)) :
    r.success + r.failed = r.total
    ∧ r.total = (flattenUploads files).length
    ∧ r.success = (r.results.filter (fun x => x.isSuccess)).length
    ∧ r.failed = (r.results.filter (fun x => x.isFailed)).length := by
  rcases eq_or_ne (flattenUploads files) [] with hE | hne
  · rw [process_uploads_empty env files s0 hE] at h
    have hcontra := congrArg Prod.fst h
    simp at hcontra
  · have h1 : (process_uploads env files s0).1 = Except.ok r := by rw [h]
    rw [process_uploads_fst env files s0 hne] at h1
    have hr := Except.ok.inj h1
    subst hr
    refine ⟨?_, rfl, rfl, rfl⟩
    have hlen : ((groupResults env 1 (s0.nextId + 1)
        (toChunks BATCH_SIZE (flattenUploads files))).map Prod.snd).length =
        (flattenUploads files).length := by
      rw [List.length_map, groupResults_length, ← List.length_flatten,
        toChunks_flatten BATCH_SIZE (by decide) (flattenUploads files)]
    exact (length_filter_success_failed _).trans hlen

/-- Witness for C1: the one-image demo run completes normally and its summary
satisfies the counting invariant. -/
theorem C1_success_failed_partition_witness :
    process_uploads okEnv demoFiles initState = (Except.ok demoSummary, demoFinal)
    ∧ (demoSummary.success + demoSummary.failed = demoSummary.total
       ∧ demoSummary.total = (flattenUploads demoFiles).length
       ∧ demoSummary.success = (demoSummary.results.filter (fun x => x.isSuccess)).length
       ∧ demoSummary.failed = (demoSummary.results.filter (fun x => x.isFailed)).length) :=
  ⟨rfl, C1_success_failed_partition okEnv demoFiles initState demoSummary demoFinal rfl⟩

/-- C2: for every nonempty flattened image list, the batcher reproduces the
input by concatenation, gives every group but the last exactly BATCH_SIZE
items, gives the last group between 1 and BATCH_SIZE items, and produces
exactly the ceiling of the length over BATCH_SIZE many groups. -/
theorem C2_batcher_partition (l : List ImageItem) (hl : l ≠ []) :
    (toChunks BATCH_SIZE l).flatten = l
    ∧ (∀ i, i + 1 < (toChunks BATCH_SIZE l).length →
        ((toChunks BATCH_SIZE l).getD i []).length = BATCH_SIZE)
    ∧ 1 ≤ ((toChunks BATCH_SIZE l).getLast?.getD []).length
    ∧ ((toChunks BATCH_SIZE l).getLast?.getD []).length ≤ BATCH_SIZE
    ∧ (toChunks BATCH_SIZE l).length = (l.length + BATCH_SIZE - 1) / BATCH_SIZE := by
  have hbs : 0 < BATCH_SIZE := by decide
  have hmem := toChunks_mem BATCH_SIZE hbs l _
    (getLastD_mem (toChunks BATCH_SIZE l) [] (toChunks_ne_nil BATCH_SIZE hbs l hl))
  refine ⟨toChunks_flatten BATCH_SIZE hbs l, toChunks_getD BATCH_SIZE hbs l, ?_, hmem.2,
    toChunks_length BATCH_SIZE l⟩
  have hpos := List.length_pos.mpr hmem.1
  omega

/-- Witness for C2 at a concrete one-image list. -/
theorem C2_batcher_partition_witness :
    demoList ≠ []
    ∧ ((toChunks BATCH_SIZE demoList).flatten = demoList
       ∧ (∀ i, i + 1 < (toChunks BATCH_SIZE demoList).length →
           ((toChunks BATCH_SIZE demoList).getD i []).length = BATCH_SIZE)
       ∧ 1 ≤ ((toChunks BATCH_SIZE demoList).getLast?.getD []).length
       ∧ ((toChunks BATCH_SIZE demoList).getLast?.getD []).length ≤ BATCH_SIZE
       ∧ (toChunks BATCH_SIZE demoList).length =
           (demoList.length + BATCH_SIZE - 1) / BATCH_SIZE) :=
  ⟨by decide, C2_batcher_partition demoList (by decide)⟩

/-- C3: the result at each position of a group depends only on the item at
that position, so one item failing never prevents later items from being
processed; the group result list has exactly one record per item; and the
outer loop uploads exactly one `batch_results.csv` per group, whatever the
per-item outcomes, the first group CSV holding exactly that group's
results. -/
theorem C3_item_failure_isolated (env : Env) (m op_idx op_folder_id op_start : Nat)
    (imgs : List ImageItem) (rest ops : List (List ImageItem)) (s : DriveState) :
    (processItems env op_idx op_folder_id 1 imgs).length = imgs.length
    ∧ (∀ j, (processItems env op_idx op_folder_id 1 imgs)[j]? =
        (imgs[j]?).map (fun im => processItem env op_idx op_folder_id (1 + j) im))
    ∧ ((runOperations env m op_start ops s).2.csvs.filter
        (fun c => c.filename == "batch_results.csv")).length =
      (s.csvs.filter (fun c => c.filename == "batch_results.csv")).length + ops.length
    ∧ (runOperations env m op_start (imgs :: rest) s).2.csvs[s.csvs.length]? =
        some { rows := (processItems env op_start s.nextId 1 imgs).map Prod.snd,
               filename := "batch_results.csv", folder := s.nextId } := by
  refine ⟨processItems_length env op_idx op_folder_id 1 imgs,
    fun j => processItems_getElem? env op_idx op_folder_id imgs 1 j, ?_, ?_⟩
  · rw [runOperations_csvs, List.filter_append, List.length_append, batchCsvs_filter,
      batchCsvs_length]
  · rw [runOperations_csvs, List.getElem?_append_right (le_refl s.csvs.length)]
    simp [batchCsvs]

/-- C4: the computed global running index of an item is
(groupIndex - 1) * BATCH_SIZE + positionWithinGroup, every recorded result
carries the operation index of its group, and in the 120-image scenario the
groups have sizes 50, 50, 20, the 75th image sits in group 2 at position 25,
and its computed global index is 75. -/
theorem C4_global_running_index (env : Env) (op_idx op_folder_id img_idx : Nat)
    (image : ImageItem) :
    (processItem env op_idx op_folder_id img_idx image).1 =
      (op_idx - 1) * BATCH_SIZE + img_idx
    ∧ ((processItem env op_idx op_folder_id img_idx image).2).operation = op_idx
    ∧ (toChunks BATCH_SIZE (demoImages 120)).map List.length = [50, 50, 20]
    ∧ ((toChunks BATCH_SIZE (demoImages 120)).getD 1 [])[24]? = (demoImages 120)[74]?
    ∧ (processItem env 2 op_folder_id 25 image).1 = 75 := by
  refine ⟨processItem_fst env op_idx op_folder_id img_idx image,
    processItem_operation env op_idx op_folder_id img_idx image, by decide, by decide, ?_⟩
  rw [processItem_fst env 2 op_folder_id 25 image]
  decide

/-- C5: in an expanded archive, members failing the case-insensitive image
extension test are dropped and the rest keep their listing order; a member
without a supported extension is never in the flattened output of its
archive; non-archive entries pass through unchanged; and expansions happen in
place, in upload order. -/
theorem C5_member_filtering (files : List UploadedFile) (f g : UploadedFile) (m : ImageItem)
    (hf : pyEndsWith f.name ".zip" = true)
    (hm : hasImageExt m.name = false)
    (hg : pyEndsWith g.name ".zip" = false) :
    flattenFile f = f.archiveMembers.filter (fun im => hasImageExt im.name)
    ∧ m ∉ flattenFile f
    ∧ flattenFile g = [{ name := g.name, bytes := g.bytes }]
    ∧ flattenUploads files = (files.map flattenFile).flatten := by
  have h1 : flattenFile f = f.archiveMembers.filter (fun im => hasImageExt im.name) := by
    simp [flattenFile, hf]
  refine ⟨h1, ?_, by simp [flattenFile, hg], flattenUploads_eq files⟩
  rw [h1]
  intro hmem
  have h2 := (List.mem_filter.mp hmem).2
  rw [hm] at h2
  exact Bool.false_ne_true h2

/-- Witness for C5 at a concrete archive with a text member, plus a plain
upload. -/
theorem C5_member_filtering_witness :
    pyEndsWith mixedZip.name ".zip" = true
    ∧ hasImageExt ({ name := "notes.txt", bytes := [1] } : ImageItem).name = false
    ∧ pyEndsWith plainFile.name ".zip" = false
    ∧ (flattenFile mixedZip = mixedZip.archiveMembers.filter (fun im => hasImageExt im.name)
       ∧ ({ name := "notes.txt", bytes := [1] } : ImageItem) ∉ flattenFile mixedZip
       ∧ flattenFile plainFile = [{ name := plainFile.name, bytes := plainFile.bytes }]
       ∧ flattenUploads [mixedZip, plainFile] = ([mixedZip, plainFile].map flattenFile).flatten) :=
  ⟨rfl, rfl, rfl, C5_member_filtering [mixedZip, plainFile] mixedZip plainFile
    { name := "notes.txt", bytes := [1] } rfl rfl rfl⟩

/-- C6: when flattening yields no image, the run reports the no-images error
and returns before creating any folder or writing any artifact: the storage
state is returned untouched. -/
theorem C6_no_images_aborts (env : Env) (files : List UploadedFile) (s0 : DriveState)
    (h : flattenUploads files = []) :
    process_uploads env files s0 = (Except.error "❌ No valid images found!", s0) :=
  process_uploads_empty env files s0 h

/-- Witness for C6 at an archive holding only a text member. -/
theorem C6_no_images_aborts_witness :
    flattenUploads emptyFiles = []
    ∧ process_uploads okEnv emptyFiles initState =
        (Except.error "❌ No valid images found!", initState) :=
  ⟨rfl, C6_no_images_aborts okEnv emptyFiles initState rfl⟩

/-- C7: an artifact-creation failure is recorded exactly like an extraction
failure: the same failure record carrying the raised message, with no fields
and no locator and nothing distinguishing the failing step; in the
single-image failing scenario the summary counts one failure and no success
and the master CSV holds one failure row. -/
theorem C7_failure_sources_identical (env1 env2 : Env) (op_idx op_folder_id img_idx : Nat)
    (image : ImageItem) (msg : String) (data : Json)
    (h1 : env1.extract_equipment_data image.bytes = Except.error msg)
    (h2 : env2.extract_equipment_data image.bytes = Except.ok data)
    (h3 : create_equipment_doc env2 data op_folder_id = Except.error msg) :
    (processItem env1 op_idx op_folder_id img_idx image).2 =
      ProcessResult.failed op_idx image.name msg
    ∧ (processItem env2 op_idx op_folder_id img_idx image).2 =
      ProcessResult.failed op_idx image.name msg
    ∧ (processItem env1 op_idx op_folder_id img_idx image).2 =
      (processItem env2 op_idx op_folder_id img_idx image).2
    ∧ (process_uploads extractFailEnv demoFiles initState).1 = Except.ok
        { total := 1, operations := 1, success := 0, failed := 1,
          master_folder_url := "https://drive.google.com/drive/folders/1",
          results := [failResult] }
    ∧ (process_uploads extractFailEnv demoFiles initState).2.csvs.getLast? =
        some { rows := [failResult], filename := "master_results.csv", folder := 1 } := by
  have hA : (processItem env1 op_idx op_folder_id img_idx image).2 =
      ProcessResult.failed op_idx image.name msg := by
    unfold processItem
    rw [h1]
  have hB : (processItem env2 op_idx op_folder_id img_idx image).2 =
      ProcessResult.failed op_idx image.name msg := by
    unfold processItem
    rw [h2]
    dsimp only
    rw [h3]
  exact ⟨hA, hB, hA.trans hB.symm, rfl, rfl⟩

/-- Witness for C7 at the two concrete failing environments. -/
theorem C7_failure_sources_identical_witness :
    extractFailEnv.extract_equipment_data demoImage.bytes = Except.error "boom"
    ∧ docFailEnv.extract_equipment_data demoImage.bytes = Except.ok fullData
    ∧ create_equipment_doc docFailEnv fullData 2 = Except.error "boom"
    ∧ ((processItem extractFailEnv 1 2 1 demoImage).2 =
         ProcessResult.failed 1 demoImage.name "boom"
       ∧ (processItem docFailEnv 1 2 1 demoImage).2 =
         ProcessResult.failed 1 demoImage.name "boom"
       ∧ (processItem extractFailEnv 1 2 1 demoImage).2 =
         (processItem docFailEnv 1 2 1 demoImage).2
       ∧ (process_uploads extractFailEnv demoFiles initState).1 = Except.ok
           { total := 1, operations := 1, success := 0, failed := 1,
             master_folder_url := "https://drive.google.com/drive/folders/1",
             results := [failResult] }
       ∧ (process_uploads extractFailEnv demoFiles initState).2.csvs.getLast? =
           some { rows := [failResult], filename := "master_results.csv", folder := 1 }) :=
  ⟨rfl, rfl, rfl, C7_failure_sources_identical extractFailEnv docFailEnv 1 2 1 demoImage
    "boom" fullData rfl rfl rfl⟩

/-- C8: on normal completion the master result list is the concatenation of
the per-group result lists in ascending group order with intra-group
processing order, and the final CSV written is that list under the fixed name
`master_results.csv` in the top-level master folder. -/
theorem C8_master_list_concat (env : Env) (files : List UploadedFile) (s0 : DriveState)
    (r : RunSummary) (sF : DriveState)
    (h : process_uploads env files s0 = (Except.ok r, sF)) :
    r.results = (groupResults env 1 (s0.nextId + 1)
      (toChunks BATCH_SIZE (flattenUploads files))).map Prod.snd
    ∧ sF.csvs.getLast? = some { rows := r.results,
                                filename := "master_results.csv", folder := s0.nextId } := by
  rcases eq_or_ne (flattenUploads files) [] with hE | hne
  · rw [process_uploads_empty env files s0 hE] at h
    have hcontra := congrArg Prod.fst h
    simp at hcontra
  · have h1 : (process_uploads env files s0).1 = Except.ok r := by rw [h]
    rw [process_uploads_fst env files s0 hne] at h1
    have hr := Except.ok.inj h1
    have h2 : (process_uploads env files s0).2 = sF := by rw [h]
    have h3 := process_uploads_csvs env files s0 hne
    rw [h2] at h3
    rw [← hr]
    exact ⟨rfl, by rw [h3, List.getLast?_concat]⟩

/-- Witness for C8 at the one-image demo run. -/
theorem C8_master_list_concat_witness :
    process_uploads okEnv demoFiles initState = (Except.ok demoSummary, demoFinal)
    ∧ (demoSummary.results = (groupResults okEnv 1 (initState.nextId + 1)
        (toChunks BATCH_SIZE (flattenUploads demoFiles))).map Prod.snd
       ∧ demoFinal.csvs.getLast? = some { rows := demoSummary.results,
                                          filename := "master_results.csv",
                                          folder := initState.nextId }) :=
  ⟨rfl, C8_master_list_concat okEnv demoFiles initState demoSummary demoFinal rfl⟩

/-- C9: a success record always carries all four extracted fields, which are
exactly the values present in the parsed response, and a parsed response
lacking any of the four keys never yields a success record. -/
theorem C9_success_requires_fields (env : Env) (op_idx op_folder_id img_idx : Nat)
    (image : ImageItem) :
    (∀ op nm fs url,
      (processItem env op_idx op_folder_id img_idx image).2 =
          ProcessResult.success op nm fs url →
        ∃ data, env.extract_equipment_data image.bytes = Except.ok data
          ∧ data.lookup "device" = some fs.device
          ∧ data.lookup "model" = some fs.model
          ∧ data.lookup "serial" = some fs.serial
          ∧ data.lookup "manufacturer" = some fs.manufacturer)
    ∧ (∀ data, env.extract_equipment_data image.bytes = Except.ok data →
        (data.lookup "device" = none ∨ data.lookup "model" = none
          ∨ data.lookup "serial" = none ∨ data.lookup "manufacturer" = none) →
        ((processItem env op_idx op_folder_id img_idx image).2).isSuccess = false) := by
  constructor
  · intro op nm fs url hEq
    exact processItem_success_lookup env op_idx op_folder_id img_idx image op nm fs url hEq
  · intro data hX hnone
    cases hS : (processItem env op_idx op_folder_id img_idx image).2 with
    | failed op im e => rfl
    | success op im fs url =>
      exfalso
      obtain ⟨data2, hX2, hd, hm2, hs2, hmf⟩ :=
        processItem_success_lookup env op_idx op_folder_id img_idx image op im fs url hS
      rw [hX] at hX2
      obtain rfl := Except.ok.inj hX2
      rcases hnone with hn | hn | hn | hn <;> simp_all

/-- Witness for C9: the environment whose parsed response lacks the serial
key never yields a success record. -/
theorem C9_success_requires_fields_witness :
    missingEnv.extract_equipment_data demoImage.bytes = Except.ok missingData
    ∧ (missingData.lookup "serial" = none)
    ∧ ((processItem missingEnv 1 2 1 demoImage).2).isSuccess = false :=
  ⟨rfl, rfl, (C9_success_requires_fields missingEnv 1 2 1 demoImage).2 missingData rfl
    (Or.inr (Or.inr (Or.inl rfl)))⟩

/-- C10: an uploaded entry is expanded as an archive exactly when its name
ends in the lowercase `.zip`; an entry named `PHOTOS.ZIP` is not expanded and
passes through as a single item carrying the raw archive bytes, while the
member image-extension test is case-insensitive. -/
theorem C10_zip_detection_case_sensitive (f g : UploadedFile)
    (hf : pyEndsWith f.name ".zip" = true)
    (hg : pyEndsWith g.name ".zip" = false) :
    flattenFile f = f.archiveMembers.filter (fun im => hasImageExt im.name)
    ∧ flattenFile g = [{ name := g.name, bytes := g.bytes }]
    ∧ pyEndsWith "PHOTOS.ZIP" ".zip" = false
    ∧ (∀ (bytes : List Nat) (members : List ImageItem),
        flattenFile { name := "PHOTOS.ZIP", bytes := bytes, archiveMembers := members } =
          [{ name := "PHOTOS.ZIP", bytes := bytes }])
    ∧ hasImageExt "PHOTOS.JPG" = true := by
  refine ⟨by simp [flattenFile, hf], by simp [flattenFile, hg], by decide, ?_, by decide⟩
  intro bytes members
  have hup : pyEndsWith (UploadedFile.mk "PHOTOS.ZIP" bytes members).name ".zip" = false := rfl
  simp [flattenFile, hup]

/-- Witness for C10 at a lowercase archive and an uppercase non-archive. -/
theorem C10_zip_detection_case_sensitive_witness :
    pyEndsWith mixedZip.name ".zip" = true
    ∧ pyEndsWith upperZip.name ".zip" = false
    ∧ (flattenFile mixedZip = mixedZip.archiveMembers.filter (fun im => hasImageExt im.name)
       ∧ flattenFile upperZip = [{ name := upperZip.name, bytes := upperZip.bytes }]
       ∧ pyEndsWith "PHOTOS.ZIP" ".zip" = false
       ∧ (∀ (bytes : List Nat) (members : List ImageItem),
           flattenFile { name := "PHOTOS.ZIP", bytes := bytes, archiveMembers := members } =
             [{ name := "PHOTOS.ZIP", bytes := bytes }])
       ∧ hasImageExt "PHOTOS.JPG" = true) :=
  ⟨rfl, rfl, C10_zip_detection_case_sensitive mixedZip upperZip rfl rfl⟩
